import Mathlib

/-!
Shallow embedding of the levenlabs/lrpc repository: the lrpc core
(Call, Handler, DirectCall, ServeMux), the lrpchttp bridge (HTTPHandler),
and the lrpchttp/json2 JSON-RPC 2.0 codec (Request, Response, Error,
NewRequest, Codec.NewCall, Codec.Respond, call.UnmarshalArgs).

Modelling conventions:
- JSON text encoding/decoding primitives are external collaborators of the
  repository, so JSON payloads are modelled at the parsed-value level by the
  inductive type Json below.  A Go json.RawMessage is modelled as the Json
  value its bytes parse to; byte-for-byte equality of raw messages becomes
  equality of Json values.
- Go nil pointers are modelled by Option (none = nil).
- Go panics are modelled by the PanicOr type; a function that can panic
  returns PanicOr of its Go result type.
- Go interface values returned by handlers are modelled by HandlerResult,
  which distinguishes the untyped nil interface, a non-error value (given by
  the Json value it marshals to), a plain error value (given by the text its
  Error method returns), and a json2 Error pointer.
- The randomness in NewRequest (a random 16-byte id, hex encoded) is made an
  explicit parameter idHex.
-/

/-- A parsed JSON value.  Numbers are modelled as integers, which covers
every payload the repository and its tests exercise. -/
inductive Json where
  | null
  | bool (b : Bool)
  | num (n : Int)
  | str (s : String)
  | arr (xs : List Json)
  | obj (fields : List (String × Json))

/-- Whether a JSON value is the literal null. -/
def Json.isNull : Json → Bool
  | .null => true
  | _ => false

/-- json2.ErrCode: integer code identifying errors over JSON RPC2. -/
def ErrCode := Int

/-- json2.ErrParse. -/
def ErrParse : Int := -32700
/-- json2.ErrInvalidRequest. -/
def ErrInvalidRequest : Int := -32600
/-- json2.ErrNoMethod. -/
def ErrNoMethod : Int := -32601
/-- json2.ErrInvalidParams. -/
def ErrInvalidParams : Int := -32602
/-- json2.ErrInternal. -/
def ErrInternal : Int := -32603
/-- json2.ErrServer: reserved for implementation-defined server errors. -/
def ErrServer : Int := -32000

/-- json2.Error: an error implementation carrying JSON RPC2 information.
Field data has no omitempty tag in the source but is optional data. -/
structure Error where
  code : Int
  message : String
  data : Option Json := none

/-- The Error method of json2.Error returns the Message field. -/
def Error.text (e : Error) : String := e.message

/-- json2.Request: a request object for the JSON RPC2 protocol.
params and id are pointers to json.RawMessage in the source; none models a
nil pointer. -/
structure Request where
  version : String
  method : String
  params : Option Json
  id : Option Json

/-- json.Marshal of a Request: all four fields carry no omitempty tag, so
every key is emitted; a nil RawMessage pointer marshals as null. -/
def Request.encode (r : Request) : Json :=
  .obj [("jsonrpc", .str r.version), ("method", .str r.method),
        ("params", r.params.getD .null), ("id", r.id.getD .null)]

/-- json.Unmarshal of a JSON value into a Go string field: a string replaces
the current field value, null leaves it untouched, anything else is a
decode error. -/
def decodeStringMember (v : Json) (cur : String) : Except String String :=
  match v with
  | .str s => .ok s
  | .null => .ok cur
  | _ => .error "json: cannot unmarshal value into Go value of type string"

/-- json.Unmarshal of a JSON value into a json.RawMessage pointer field:
null sets the pointer to nil, any other value is captured verbatim. -/
def decodeRawMember (v : Json) : Option Json :=
  if v.isNull then none else some v

/-- json.Unmarshal of the object fields into a Request being decoded: the
struct tags map jsonrpc and method to string fields and params and id to
RawMessage pointer fields.  Unknown keys are ignored; later duplicate keys
overwrite earlier ones, as in encoding/json. -/
def decodeRequestFields : List (String × Json) → Request → Except String Request
  | [], acc => .ok acc
  | (k, v) :: rest, acc =>
    if k = "jsonrpc" then
      (decodeStringMember v acc.version).bind
        (fun s => decodeRequestFields rest { acc with version := s })
    else if k = "method" then
      (decodeStringMember v acc.method).bind
        (fun s => decodeRequestFields rest { acc with method := s })
    else if k = "params" then
      decodeRequestFields rest { acc with params := decodeRawMember v }
    else if k = "id" then
      decodeRequestFields rest { acc with id := decodeRawMember v }
    else
      decodeRequestFields rest acc

/-- json.Decode of a JSON value into a Request: a JSON object is decoded
field by field starting from the zero Request, the literal null leaves the
zero Request, and any other value is a decode error. -/
def decodeRequest : Json → Except String Request
  | .obj fields =>
      decodeRequestFields fields { version := "", method := "", params := none, id := none }
  | .null => .ok { version := "", method := "", params := none, id := none }
  | _ => .error "json: cannot unmarshal value into Go value of type json2.Request"

/-- json2.NewRequest: builds an outbound Request with version 2.0, the given
method, the marshalled params as the raw params member, and the (random,
here explicit) hex identifier marshalled as a JSON string as the id.
Marshalling is total at the parsed-value level, so the error return of the
source is always nil here. -/
def NewRequest (idHex : String) (method : String) (params : Json) : Request :=
  { version := "2.0", method := method, params := some params, id := some (.str idHex) }

/-- A Go context, restricted to the keys this repository attaches: the
bridge attaches the http request and response writer under two private
keys, and the json2 codec attaches the parsed Request. -/
structure Ctx where
  hasRequest : Bool := false
  hasWriter : Bool := false
  json2Req : Option Request := none

/-- The Go types that appear as DirectCall argument and destination types in
this development.  iface is the empty interface type. -/
inductive GoType where
  | intT
  | stringT
  | boolT
  | iface
deriving DecidableEq

/-- The %T / reflect rendering of a GoType. -/
def GoType.name : GoType → String
  | .intT => "int"
  | .stringT => "string"
  | .boolT => "bool"
  | .iface => "interface"

/-- A dynamically typed Go value stored as a DirectCall argument. -/
inductive GoVal where
  | int (n : Int)
  | str (s : String)
  | bool (b : Bool)
deriving DecidableEq

/-- reflect.TypeOf on a GoVal. -/
def GoVal.typeOf : GoVal → GoType
  | .int _ => .intT
  | .str _ => .stringT
  | .bool _ => .boolT

/-- reflect.Type.AssignableTo restricted to the types of GoType: a type is
assignable to itself and every type is assignable to the empty interface. -/
def GoType.assignableTo (src dst : GoType) : Bool :=
  src = dst || dst = .iface

/-- lrpc.DirectCall: a transport-less Call holding a context (none models a
nil context), a method name and an already-typed argument value. -/
structure DirectCall where
  ctx : Option Ctx
  method : String
  args : GoVal

/-- lrpc.NewDirectCall. -/
def NewDirectCall (ctx : Option Ctx) (method : String) (args : GoVal) : DirectCall :=
  { ctx := ctx, method := method, args := args }

/-- DirectCall.Context: returns context.Background() when the stored context
is nil. -/
def DirectCall.Context (dc : DirectCall) : Ctx :=
  dc.ctx.getD {}

/-- DirectCall.Method. -/
def DirectCall.Method (dc : DirectCall) : String :=
  dc.method

/-- The destination argument i of an UnmarshalArgs call, as seen through
reflect.Indirect(reflect.ValueOf(i)): either a pointer to a settable slot
of some type, or a non-pointer value, which is not settable. -/
inductive Dest where
  | ptr (t : GoType)
  | nonPtr (t : GoType)

/-- The result of running Go code that can panic: either a panic with a
message, or a normal return. -/
inductive PanicOr (α : Type) where
  | panics (msg : String)
  | ret (a : α)

/-- Whether a PanicOr is a panic. -/
def PanicOr.isPanic {α : Type} : PanicOr α → Bool
  | .panics _ => true
  | .ret _ => false

/-- The runtime panic message of a nil pointer dereference. -/
def nilDerefMsg : String :=
  "runtime error: invalid memory address or nil pointer dereference"

/-- DirectCall.UnmarshalArgs: takes reflect.ValueOf of the stored args and
reflect.Indirect of the destination; if the destination is not settable
(not a pointer) it returns the fmt.Errorf error whose text is the source
string constant (written here with the escape x27 for its apostrophe)
followed by the %T rendering of the destination; otherwise
reflect.Value.Set copies the args into the destination, and Set panics
when the args type is not assignable to the destination type. -/
def DirectCall.UnmarshalArgs (dc : DirectCall) (dest : Dest) : PanicOr (Except String GoVal) :=
  match dest with
  | .nonPtr t => .ret (.error ("type isn\x27t setable: " ++ t.name))
  | .ptr t =>
      if dc.args.typeOf.assignableTo t then .ret (.ok dc.args)
      else .panics ("reflect.Set: value of type " ++ dc.args.typeOf.name ++
                    " is not assignable to type " ++ t.name)

/-- json2.call: the json2 implementation of lrpc.Call, holding the context
built by NewCall and the parsed Request. -/
structure call where
  ctx : Ctx
  req : Request

/-- json2 call.UnmarshalArgs: json.Unmarshal(*c.req.Params, i).  The raw
params pointer is dereferenced unconditionally, so a nil params pointer is
a nil pointer dereference panic; otherwise the params value is decoded
into the destination.  The behaviour of json.Unmarshal for the concrete
destination type is abstracted by the decoder dec; decoding into a pointer
to the empty interface is the decoder Except.ok, which yields the parsed
params value itself. -/
def call.UnmarshalArgs {δ : Type} (c : call) (dec : Json → Except String δ) :
    PanicOr (Except String δ) :=
  match c.req.params with
  | none => .panics nilDerefMsg
  | some p => .ret (dec p)

/-- lrpc.Call: the Call interface; its implementations in this repository
are the json2 call and the DirectCall. -/
inductive Call where
  | json2 (c : call)
  | direct (dc : DirectCall)

/-- Call.Method, dispatching to the implementation: the json2 call returns
the parsed Request method field, the DirectCall returns its method field. -/
def Call.Method : Call → String
  | .json2 c => c.req.method
  | .direct dc => dc.Method

/-- Call.Context, dispatching to the implementation. -/
def Call.Context : Call → Ctx
  | .json2 c => c.ctx
  | .direct dc => dc.Context

/-- A Go interface value returned by a Handler, as inspected by the json2
codec: the untyped nil interface, a non-error value given by the Json value
it marshals to, a plain error value (satisfies error, is not a json2 Error
pointer) given by its Error text, or a json2 Error pointer. -/
inductive HandlerResult where
  | nil
  | value (v : Json)
  | goError (msg : String)
  | jsonrpcError (e : Error)

/-- lrpc.ErrMethodNotFound: the sentinel error returned when a method is not
registered; errors.New with the text method not found. -/
def ErrMethodNotFound : HandlerResult :=
  .goError "method not found"

/-- lrpc.Handler: a type that processes an rpc Call and returns a response
value. -/
structure Handler where
  ServeRPC : Call → HandlerResult

/-- lrpc.HandlerFunc: wraps a function as a Handler. -/
def HandlerFunc (f : Call → HandlerResult) : Handler :=
  { ServeRPC := f }

/-- lrpc.ServeMux: a mapping from method names to Handlers, modelled as an
association list in which the most recent registration for a method comes
first. -/
def ServeMux := List (String × Handler)

/-- Go map indexing sm[method]: the value registered for the method, if
any. -/
def ServeMux.lookup : ServeMux → String → Option Handler
  | [], _ => none
  | (m, h) :: rest, m2 => if m2 = m then some h else ServeMux.lookup rest m2

/-- ServeMux.ServeRPC: looks the called method up in the map and delegates
to the registered Handler, or returns ErrMethodNotFound when the method is
absent. -/
def ServeMux.ServeRPC (sm : ServeMux) (c : Call) : HandlerResult :=
  match sm.lookup c.Method with
  | some h => h.ServeRPC c
  | none => ErrMethodNotFound

/-- ServeMux.Handle: registers a Handler for a method name (overwriting any
prior registration, since lookup finds the newest entry) and returns the
mux for chaining. -/
def ServeMux.Handle (sm : ServeMux) (method : String) (h : Handler) : ServeMux :=
  (method, h) :: sm

/-- ServeMux.HandleFunc: Handle with the function wrapped by HandlerFunc. -/
def ServeMux.HandleFunc (sm : ServeMux) (method : String) (f : Call → HandlerResult) : ServeMux :=
  sm.Handle method (HandlerFunc f)

/-- json2.Response: a response object for the JSON RPC2 protocol.  result
and error carry omitempty tags; id does not. -/
structure Response where
  version : String
  result : Option Json
  error : Option Error
  id : Option Json

/-- json.Marshal of a json2.Error value: code, message and data (data has no
omitempty tag, so a nil data marshals as null). -/
def Error.encode (e : Error) : Json :=
  .obj [("code", .num e.code), ("message", .str e.message),
        ("data", e.data.getD .null)]

/-- json.Marshal of a Response: version always, result and error only when
non-nil (omitempty), id always (a nil id pointer marshals as null). -/
def Response.encode (r : Response) : Json :=
  .obj ([("jsonrpc", .str r.version)]
    ++ (match r.result with | some v => [("result", v)] | none => [])
    ++ (match r.error with | some e => [("error", e.encode)] | none => [])
    ++ [("id", r.id.getD .null)])

/-- An incoming http request as the json2 codec consumes it: its body,
already parsed (none models a body that is not well-formed JSON, which
json.Decode rejects). -/
structure HttpRequest where
  body : Option Json

/-- json2 Codec.NewCall: decodes the request body into a Request; on decode
failure returns the decode error; on success attaches the parsed Request to
the context and returns a json2 call built from that context and Request. -/
def Codec.NewCall (ctx : Ctx) (r : HttpRequest) : Except String Call :=
  match r.body with
  | none => .error "invalid character in request body"
  | some j =>
    match decodeRequest j with
    | .error e => .error e
    | .ok req => .ok (.json2 { ctx := { ctx with json2Req := some req }, req := req })

/-- The panic message of the failed interface conversion in json2
Codec.Respond when the Call is not a json2 call. -/
def ifaceConvMsg : String :=
  "interface conversion: lrpc.Call is not json2.call"

/-- json2 Codec.Respond: fetches the response writer from the Call context,
asserts the Call to the json2 call type (a panic for any other Call
implementation), then builds a Response: an error result that is already a
json2 Error pointer is used as-is, any other error result is wrapped as a
json2 Error with code ErrServer and the error text as message, and a
non-error result is placed in the result field; version is set to 2.0 and
id is copied from the parsed Request.  The Response is then JSON-encoded to
the writer (a panic when the context carries no writer, since the nil
writer is used); encoding is total at the parsed-value level, so the error
return of the source is always nil here. -/
def Codec.Respond (cc : Call) (i : HandlerResult) : PanicOr (Except String Response) :=
  match cc with
  | .direct _ => .panics ifaceConvMsg
  | .json2 c =>
    let base : Response := { version := "", result := none, error := none, id := none }
    let withBody : Response :=
      match i with
      | .goError msg => { base with error := some { code := ErrServer, message := msg, data := none } }
      | .jsonrpcError e => { base with error := some e }
      | .nil => { base with result := none }
      | .value v => { base with result := some v }
    let res : Response := { withBody with version := "2.0", id := c.req.id }
    if c.ctx.hasWriter then .ret (.ok res) else .panics nilDerefMsg

/-- The lrpchttp.Codec interface: NewCall translates an http request into an
lrpc.Call, Respond marshals and writes a response for the Call. -/
structure HttpCodec where
  NewCall : Ctx → HttpRequest → Except String Call
  Respond : Call → HandlerResult → PanicOr (Except String Response)

/-- The json2 Codec packaged as an lrpchttp.Codec. -/
def json2Codec : HttpCodec :=
  { NewCall := Codec.NewCall, Respond := Codec.Respond }

/-- What one request through the http bridge produces: an http.Error write
with a message and a status code, a successfully written Response, or a
propagated panic. -/
inductive BridgeOutcome where
  | httpError (msg : String) (status : Nat)
  | served (resp : Response)
  | panicked (msg : String)

/-- The context the bridge builds before calling the codec: the request
context with the http request and the response writer attached. -/
def bridgeCtx : Ctx :=
  { hasRequest := true, hasWriter := true, json2Req := none }

/-- lrpchttp.HTTPHandler: per request, builds the bridge context, asks the
codec for a Call (on error, http.Error with the error text and status 400
and stop), passes the Call to the Handler, and asks the codec to respond
with the handler result (on error, http.Error with the error text and
status 500). -/
def HTTPHandler (codec : HttpCodec) (h : Handler) (r : HttpRequest) : BridgeOutcome :=
  match codec.NewCall bridgeCtx r with
  | .error e => .httpError e 400
  | .ok c =>
    let res := h.ServeRPC c
    match codec.Respond c res with
    | .panics m => .panicked m
    | .ret (.error e) => .httpError e 500
    | .ret (.ok resp) => .served resp

/-! Sample values used by the witness theorems. -/

/-- A handler that ignores its Call and returns a fixed string value. -/
def echoHandler : Handler := HandlerFunc (fun _ => .value (.str "echo"))

/-- A one-entry mux registering echoHandler under Echo. -/
def mux0 : ServeMux := [("Echo", echoHandler)]

/-- A DirectCall for the registered method Echo. -/
def dcEcho : Call := .direct (NewDirectCall none "Echo" (.bool true))

/-- A DirectCall for an unregistered method. -/
def dcMissing : Call := .direct (NewDirectCall none "wat" (.bool true))

/-- The Request parsed from a body that carries only a method member: the
params and id members are absent, so both pointers are nil. -/
def req0 : Request := { version := "", method := "Echo", params := none, id := none }

/-- The json2 call NewCall builds from that body under the bridge context. -/
def c0 : call := { ctx := { bridgeCtx with json2Req := some req0 }, req := req0 }

/-- A DirectCall whose stored argument is the int 5. -/
def dcInt : DirectCall := NewDirectCall none "Echo" (.int 5)

/-- C1: for every ServeMux, a Call whose method is registered is served by
the registered handler with the same Call, and a Call whose method is not a
key of the mux is answered with the sentinel ErrMethodNotFound. -/
theorem ServeMux_dispatch (sm : ServeMux) (c : Call) :
    (∀ h : Handler, sm.lookup c.Method = some h → sm.ServeRPC c = h.ServeRPC c) ∧
    (sm.lookup c.Method = none → sm.ServeRPC c = ErrMethodNotFound) := by
  constructor
  · intro h hh
    unfold ServeMux.ServeRPC
    rw [hh]
  · intro hn
    unfold ServeMux.ServeRPC
    rw [hn]

/-- C1 witness: in the concrete mux, the method Echo routes to echoHandler
and the method wat yields ErrMethodNotFound. -/
theorem ServeMux_dispatch_witness :
    ServeMux.ServeRPC mux0 dcEcho = echoHandler.ServeRPC dcEcho ∧
    ServeMux.ServeRPC mux0 dcMissing = ErrMethodNotFound :=
  ⟨(ServeMux_dispatch mux0 dcEcho).1 echoHandler rfl,
   (ServeMux_dispatch mux0 dcMissing).2 rfl⟩

/-- C2: for every Call produced by json2 NewCall and every handler result,
a Response that Respond writes carries exactly the id of the parsed
originating Request, including when that id is nil. -/
theorem Respond_echoes_id (ctx : Ctx) (r : HttpRequest) (c : call) (i : HandlerResult)
    (resp : Response)
    (hc : Codec.NewCall ctx r = .ok (.json2 c))
    (hr : Codec.Respond (.json2 c) i = .ret (.ok resp)) :
    resp.id = c.req.id := by
  dsimp only [Codec.Respond] at hr
  by_cases hw : c.ctx.hasWriter = true
  · rw [if_pos hw] at hr
    injection hr with h1
    injection h1 with h2
    rw [← h2]
  · rw [if_neg hw] at hr
    exact PanicOr.noConfusion hr

/-- C2 witness: for the call parsed from a body with an absent id, the
Response id is the nil id of the originating Request. -/
theorem Respond_echoes_id_witness :
    ({ version := "2.0", result := none, error := none, id := none } : Response).id =
      c0.req.id :=
  Respond_echoes_id bridgeCtx { body := some (.obj [("method", .str "Echo")]) } c0 .nil
    { version := "2.0", result := none, error := none, id := none } rfl rfl

/-- C3: a handler result that is an error but not a json2 Error pointer is
wrapped by Respond as a json2 Error with code ErrServer, which is -32000,
the Error text as message and no data; a result that already is a json2
Error pointer becomes the Response error field unchanged. -/
theorem Respond_error_wrapping (c : call) (msg : String) (e : Error) (r1 r2 : Response)
    (h1 : Codec.Respond (.json2 c) (.goError msg) = .ret (.ok r1))
    (h2 : Codec.Respond (.json2 c) (.jsonrpcError e) = .ret (.ok r2)) :
    r1.error = some { code := ErrServer, message := msg, data := none } ∧
    ErrServer = -32000 ∧
    r2.error = some e := by
  dsimp only [Codec.Respond] at h1 h2
  by_cases hw : c.ctx.hasWriter = true
  · rw [if_pos hw] at h1 h2
    injection h1 with h1a
    injection h1a with h1b
    injection h2 with h2a
    injection h2a with h2b
    refine ⟨?_, rfl, ?_⟩
    · rw [← h1b]
    · rw [← h2b]
  · rw [if_neg hw] at h1
    exact PanicOr.noConfusion h1

/-- C3 witness: for the concrete call c0, a plain error with text boom is
wrapped with code -32000 and a json2 Error with code 7 passes through. -/
theorem Respond_error_wrapping_witness :
    ({ version := "2.0", result := none,
       error := some { code := ErrServer, message := "boom", data := none },
       id := none } : Response).error =
        some { code := ErrServer, message := "boom", data := none } ∧
    ErrServer = -32000 ∧
    ({ version := "2.0", result := none,
       error := some { code := 7, message := "custom", data := none },
       id := none } : Response).error =
        some { code := 7, message := "custom", data := none } :=
  Respond_error_wrapping c0 "boom" { code := 7, message := "custom", data := none }
    _ _ rfl rfl

/-- C4: a Response built by Respond never has both the result field and the
error field populated. -/
theorem Respond_mutual_exclusivity (cc : Call) (i : HandlerResult) (resp : Response)
    (h : Codec.Respond cc i = .ret (.ok resp)) :
    ¬ (resp.result.isSome = true ∧ resp.error.isSome = true) := by
  cases cc with
  | direct dc => exact PanicOr.noConfusion h
  | json2 c =>
    dsimp only [Codec.Respond] at h
    by_cases hw : c.ctx.hasWriter = true
    · rw [if_pos hw] at h
      injection h with h1
      injection h1 with h2
      rw [← h2]
      cases i <;> simp
    · rw [if_neg hw] at h
      exact PanicOr.noConfusion h

/-- C4 witness: the Response Respond builds for the call c0 and a plain
error result does not have both fields populated. -/
theorem Respond_mutual_exclusivity_witness :
    ¬ (({ version := "2.0", result := none,
          error := some { code := ErrServer, message := "boom", data := none },
          id := none } : Response).result.isSome = true ∧
       ({ version := "2.0", result := none,
          error := some { code := ErrServer, message := "boom", data := none },
          id := none } : Response).error.isSome = true) :=
  Respond_mutual_exclusivity (.json2 c0) (.goError "boom") _ rfl

/-- C9: json2 Respond asserts its Call argument to the json2 call type: it
panics with the interface conversion message on every DirectCall, and any
Call on which it returns normally is a json2 call. -/
theorem Respond_asserts_json2_call (cc : Call) (i : HandlerResult) :
    (∀ dc : DirectCall, cc = .direct dc → Codec.Respond cc i = .panics ifaceConvMsg) ∧
    (∀ r : Except String Response, Codec.Respond cc i = .ret r → ∃ c : call, cc = .json2 c) := by
  constructor
  · intro dc hdc
    subst hdc
    rfl
  · intro r hr
    cases cc with
    | json2 c => exact ⟨c, rfl⟩
    | direct dc => exact PanicOr.noConfusion hr

/-- C9 witness: Respond on a concrete DirectCall panics with the interface
conversion message. -/
theorem Respond_asserts_json2_call_witness :
    Codec.Respond (.direct (NewDirectCall none "Echo" (.bool true))) .nil =
      .panics ifaceConvMsg :=
  (Respond_asserts_json2_call (.direct (NewDirectCall none "Echo" (.bool true))) .nil).1
    (NewDirectCall none "Echo" (.bool true)) rfl

/-- C10: when the handler result is the nil interface, Respond takes the
result branch with a nil value, and the encoded Response object carries
neither a result member nor an error member, only jsonrpc and id. -/
theorem Respond_nil_result (c : call) (hw : c.ctx.hasWriter = true) :
    ∃ resp : Response,
      Codec.Respond (.json2 c) .nil = .ret (.ok resp) ∧
      resp.result = none ∧ resp.error = none ∧
      resp.encode = .obj [("jsonrpc", .str "2.0"), ("id", c.req.id.getD .null)] := by
  refine ⟨{ version := "2.0", result := none, error := none, id := c.req.id }, ?_, rfl, rfl, rfl⟩
  dsimp only [Codec.Respond]
  rw [if_pos hw]

/-- C10 witness: the concrete call c0 with a nil handler result yields a
Response with no result and no error whose encoding has only the jsonrpc
and id members. -/
theorem Respond_nil_result_witness :
    ∃ resp : Response,
      Codec.Respond (.json2 c0) .nil = .ret (.ok resp) ∧
      resp.result = none ∧ resp.error = none ∧
      resp.encode = .obj [("jsonrpc", .str "2.0"), ("id", c0.req.id.getD .null)] :=
  Respond_nil_result c0 rfl

/-- C7: when the codec NewCall fails for a request, HTTPHandler writes the
error text with status 400 and stops; the outcome does not depend on the
Handler or on the codec Respond function, so neither is invoked. -/
theorem HTTPHandler_newcall_error (codec : HttpCodec) (h : Handler) (r : HttpRequest)
    (e : String)
    (he : codec.NewCall bridgeCtx r = .error e) :
    HTTPHandler codec h r = .httpError e 400 ∧
    ∀ (h2 : Handler) (R2 : Call → HandlerResult → PanicOr (Except String Response)),
      HTTPHandler { codec with Respond := R2 } h2 r = .httpError e 400 := by
  constructor
  · unfold HTTPHandler
    rw [he]
  · intro h2 R2
    unfold HTTPHandler
    rw [show ({ codec with Respond := R2 } : HttpCodec).NewCall = codec.NewCall from rfl, he]

/-- C7 witness: a malformed body makes json2 NewCall fail, and the bridge
answers with the decode error text and status 400. -/
theorem HTTPHandler_newcall_error_witness :
    HTTPHandler json2Codec echoHandler { body := none } =
      .httpError "invalid character in request body" 400 :=
  (HTTPHandler_newcall_error json2Codec echoHandler { body := none }
    "invalid character in request body" rfl).1

/-- C6 counterexample: for the DirectCall storing the int 5 and a settable
destination of type string, which is not assignable from int, UnmarshalArgs
does not return an error value: reflect.Value.Set panics. -/
theorem DirectCall_UnmarshalArgs_cex :
    DirectCall.UnmarshalArgs dcInt (.ptr .stringT) =
      .panics "reflect.Set: value of type int is not assignable to type string" ∧
    (DirectCall.UnmarshalArgs dcInt (.ptr .stringT)).isPanic = true :=
  ⟨rfl, rfl⟩

/-- C6 amended: DirectCall UnmarshalArgs checks settability, not
assignability: a settable destination whose type is not assignable from the
stored argument type makes reflect.Value.Set panic, while a non-settable
(non-pointer) destination yields the error return whose text is the
source constant, that is, type isn (apostrophe) t setable: %T. -/
theorem DirectCall_UnmarshalArgs_amended (dc : DirectCall) (t : GoType)
    (h : dc.args.typeOf.assignableTo t = false) :
    DirectCall.UnmarshalArgs dc (.ptr t) =
      .panics ("reflect.Set: value of type " ++ dc.args.typeOf.name ++
               " is not assignable to type " ++ t.name) ∧
    ∀ t2 : GoType, DirectCall.UnmarshalArgs dc (.nonPtr t2) =
      .ret (.error ("type isn\x27t setable: " ++ t2.name)) := by
  constructor
  · dsimp only [DirectCall.UnmarshalArgs]
    rw [if_neg (by rw [h]; exact Bool.false_ne_true)]
  · intro t2
    rfl

/-- C6 amended witness: at the concrete DirectCall storing an int and a
string destination, Set panics, and a non-pointer destination of type bool
yields the error return. -/
theorem DirectCall_UnmarshalArgs_amended_witness :
    DirectCall.UnmarshalArgs dcInt (.ptr .stringT) =
      .panics ("reflect.Set: value of type " ++ dcInt.args.typeOf.name ++
               " is not assignable to type " ++ GoType.name .stringT) ∧
    ∀ t2 : GoType, DirectCall.UnmarshalArgs dcInt (.nonPtr t2) =
      .ret (.error ("type isn\x27t setable: " ++ t2.name)) :=
  DirectCall_UnmarshalArgs_amended dcInt .stringT rfl

/-- When no field of the object carries the key params, decoding leaves the
params pointer of the accumulator unchanged. -/
theorem decodeRequestFields_params_absent (fields : List (String × Json)) (acc req : Request)
    (hk : ∀ v : Json, ("params", v) ∉ fields)
    (hd : decodeRequestFields fields acc = .ok req) :
    req.params = acc.params := by
  induction fields generalizing acc with
  | nil =>
    injection hd with h
    rw [← h]
  | cons kv rest ih =>
    obtain ⟨k, v⟩ := kv
    have hkp : k ≠ "params" := by
      intro hkeq
      subst hkeq
      exact hk v (List.mem_cons_self _ _)
    have hkrest : ∀ v2 : Json, ("params", v2) ∉ rest :=
      fun v2 hm => hk v2 (List.mem_cons_of_mem _ hm)
    rw [decodeRequestFields] at hd
    by_cases h1 : k = "jsonrpc"
    · rw [if_pos h1] at hd
      cases hs : decodeStringMember v acc.version with
      | error e => rw [hs] at hd; exact Except.noConfusion hd
      | ok s => rw [hs] at hd; exact ih { acc with version := s } hkrest hd
    · rw [if_neg h1] at hd
      by_cases h2 : k = "method"
      · rw [if_pos h2] at hd
        cases hs : decodeStringMember v acc.method with
        | error e => rw [hs] at hd; exact Except.noConfusion hd
        | ok s => rw [hs] at hd; exact ih { acc with method := s } hkrest hd
      · rw [if_neg h2, if_neg hkp] at hd
        by_cases h4 : k = "id"
        · rw [if_pos h4] at hd
          exact ih { acc with id := decodeRawMember v } hkrest hd
        · rw [if_neg h4] at hd
          exact ih acc hkrest hd

/-- C8: for a Call built by json2 NewCall from a body whose object omits the
params member, the parsed params pointer is nil, and UnmarshalArgs panics
with a nil pointer dereference for every destination, instead of returning
a decode error. -/
theorem UnmarshalArgs_nil_params_panics (ctx : Ctx) (fields : List (String × Json)) (c : call)
    (hk : ∀ v : Json, ("params", v) ∉ fields)
    (hc : Codec.NewCall ctx { body := some (.obj fields) } = .ok (.json2 c)) :
    c.req.params = none ∧
    ∀ (δ : Type) (dec : Json → Except String δ),
      call.UnmarshalArgs c dec = .panics nilDerefMsg := by
  have hp : c.req.params = none := by
    dsimp only [Codec.NewCall, decodeRequest] at hc
    cases hdec : decodeRequestFields fields
        { version := "", method := "", params := none, id := none } with
    | error e =>
      rw [hdec] at hc
      exact Except.noConfusion hc
    | ok req =>
      rw [hdec] at hc
      injection hc with h1
      injection h1 with h2
      rw [← h2]
      exact decodeRequestFields_params_absent fields _ req hk hdec
  refine ⟨hp, fun δ dec => ?_⟩
  dsimp only [call.UnmarshalArgs]
  rw [hp]

/-- C8 witness: the call parsed from a body carrying only a method member
has a nil params pointer and its UnmarshalArgs panics for the identity
decoder into the empty interface. -/
theorem UnmarshalArgs_nil_params_panics_witness :
    c0.req.params = none ∧
    call.UnmarshalArgs c0 Except.ok = .panics nilDerefMsg :=
  ⟨(UnmarshalArgs_nil_params_panics bridgeCtx [("method", .str "Echo")] c0
      (by intro v hv; simp at hv) rfl).1,
   (UnmarshalArgs_nil_params_panics bridgeCtx [("method", .str "Echo")] c0
      (by intro v hv; simp at hv) rfl).2 Json Except.ok⟩

/-- The Request parsed back from the encoding of NewRequest with params
that marshal to JSON null: the params pointer comes back nil. -/
def reqNull : Request :=
  { version := "2.0", method := "m", params := none, id := some (.str "ab") }

/-- The json2 call NewCall builds from that encoded request. -/
def cNull : call :=
  { ctx := { bridgeCtx with json2Req := some reqNull }, req := reqNull }

/-- C5 counterexample: params that marshal to JSON null are JSON
marshallable, and NewRequest, encoding and NewCall succeed on them, but the
decoded params pointer is nil, so UnmarshalArgs panics instead of producing
a value equal to the original params. -/
theorem NewRequest_roundtrip_cex :
    Codec.NewCall bridgeCtx { body := some (NewRequest "ab" "m" .null).encode } =
      .ok (.json2 cNull) ∧
    call.UnmarshalArgs cNull Except.ok = .panics nilDerefMsg ∧
    call.UnmarshalArgs cNull Except.ok ≠ .ret (.ok .null) :=
  ⟨rfl, rfl, fun h => PanicOr.noConfusion h⟩

/-- C5 amended: for every method name and every params value whose JSON
marshalling is not the literal null, building a Request with NewRequest,
serializing it and decoding it through NewCall yields a Call whose Method
is the original method and whose UnmarshalArgs produces the original params
value under JSON re-decoding. -/
theorem NewRequest_roundtrip (idHex method : String) (params : Json)
    (hp : params.isNull = false) :
    ∃ c : call,
      Codec.NewCall bridgeCtx { body := some (NewRequest idHex method params).encode } =
        .ok (.json2 c) ∧
      Call.Method (.json2 c) = method ∧
      call.UnmarshalArgs c Except.ok = .ret (.ok params) := by
  cases params with
  | null => exact absurd hp (by simp [Json.isNull])
  | bool b => exact ⟨_, rfl, rfl, rfl⟩
  | num n => exact ⟨_, rfl, rfl, rfl⟩
  | str s => exact ⟨_, rfl, rfl, rfl⟩
  | arr xs => exact ⟨_, rfl, rfl, rfl⟩
  | obj fs => exact ⟨_, rfl, rfl, rfl⟩

/-- C5 amended witness: a concrete round trip for method Echo with a string
params value. -/
theorem NewRequest_roundtrip_witness :
    ∃ c : call,
      Codec.NewCall bridgeCtx
          { body := some (NewRequest "abcd" "Echo" (.str "x")).encode } =
        .ok (.json2 c) ∧
      Call.Method (.json2 c) = "Echo" ∧
      call.UnmarshalArgs c Except.ok = .ret (.ok (.str "x")) :=
  NewRequest_roundtrip "abcd" "Echo" (.str "x") rfl
